import Mathlib

/-!
Verification of the IBFT consensus engine (Python sources: `messages.py`,
`crypto.py`, `node.py`, `consensus.py`, `view_change.py`, `config.py`)
against its natural-language specification.

The Python code is shallowly embedded: dictionaries become association
lists, Python sets become duplicate-free lists, machine-level hashing
(`hashlib.sha256`) is embedded as SHA-256 over `Nat` words reduced mod
2^32, and each message handler becomes a pure function from a node state
and a message to a new state plus the list of broadcast messages and
decision-callback invocations.  All strings that the code hashes are
ASCII, so `Char.toNat` agrees with Python's UTF-8 `encode`.
-/

namespace IBFT

/-! ## Messages (`messages.py`) -/

/-- The five IBFT message variants (`MessageType` enum). -/
inductive MessageType
  | PREPREPARE
  | PREPARE
  | COMMIT
  | ROUND_CHANGE
  | NEW_ROUND
deriving DecidableEq, Repr

/-- The string tag of each variant (the enum's `.value`). -/
def MessageType.tag : MessageType → String
  | .PREPREPARE => "PREPREPARE"
  | .PREPARE => "PREPARE"
  | .COMMIT => "COMMIT"
  | .ROUND_CHANGE => "ROUND_CHANGE"
  | .NEW_ROUND => "NEW_ROUND"

/-- `MessageType(tag)`: recover the enum member from its string value. -/
def parseMessageType (s : String) : Option MessageType :=
  if s = "PREPREPARE" then some .PREPREPARE
  else if s = "PREPARE" then some .PREPARE
  else if s = "COMMIT" then some .COMMIT
  else if s = "ROUND_CHANGE" then some .ROUND_CHANGE
  else if s = "NEW_ROUND" then some .NEW_ROUND
  else none

/-- The `IBFTMessage` dataclass.  `value = none` is Python's `None`;
`justification` is the set of supporting digests (kept as a list);
Python's float `timestamp` is modelled as a natural number of ticks
(it is only ever serialized, never compared). -/
structure IBFTMessage where
  msg_type : MessageType
  view : Nat
  sequence : Nat
  sender : Nat
  value : Option String := none
  justification : List String := []
  signature : Option String := none
  timestamp : Nat := 0
deriving DecidableEq, Repr

/-! ## Association-list model of Python `dict` / `set` -/

/-- `d[k]` lookup on an association list (insertion-ordered, like a
Python dict). -/
def lookupA {α β : Type} [DecidableEq α] : List (α × β) → α → Option β
  | [], _ => none
  | (k, v) :: t, a => if k = a then some v else lookupA t a

/-- `d[k] = v`: replace the binding if the key exists, otherwise append
(Python dicts keep insertion order). -/
def setA {α β : Type} [DecidableEq α] : List (α × β) → α → β → List (α × β)
  | [], a, b => [(a, b)]
  | (k, v) :: t, a, b => if k = a then (a, b) :: t else (k, v) :: setA t a b

/-- `defaultdict` read: missing keys yield the default. -/
def getDA {α β : Type} [DecidableEq α] (l : List (α × β)) (a : α) (d : β) : β :=
  (lookupA l a).getD d

/-- `s.add(x)` on a Python set modelled as a duplicate-free list, so the
list length is the set's cardinality. -/
def addToSet (l : List Nat) (x : Nat) : List Nat :=
  if x ∈ l then l else l ++ [x]

/-! ## SHA-256 over `Nat` (the `hashlib.sha256` used by `crypto.py` and
`messages.py`), FIPS 180-4, words reduced mod 2^32 -/

/-- 2^32, the word modulus. -/
def M32 : Nat := 4294967296

/-- Rotate a word right by `k` bit positions, staying below 2^32. -/
def rotr (x k : Nat) : Nat := ((x >>> k) ||| (x <<< (32 - k))) % M32

def smallSigma0 (x : Nat) : Nat := (rotr x 7) ^^^ (rotr x 18) ^^^ (x >>> 3)

def smallSigma1 (x : Nat) : Nat := (rotr x 17) ^^^ (rotr x 19) ^^^ (x >>> 10)

def bigSigma0 (x : Nat) : Nat := (rotr x 2) ^^^ (rotr x 13) ^^^ (rotr x 22)

def bigSigma1 (x : Nat) : Nat := (rotr x 6) ^^^ (rotr x 11) ^^^ (rotr x 25)

/-- The 64 round constants of FIPS 180-4, written in decimal. -/
def sha256K : List Nat :=
  [1116352408, 1899447441, 3049323471, 3921009573, 961987163,
   1508970993, 2453635748, 2870763221, 3624381080, 310598401,
   607225278, 1426881987, 1925078388, 2162078206, 2614888103,
   3248222580, 3835390401, 4022224774, 264347078, 604807628,
   770255983, 1249150122, 1555081692, 1996064986, 2554220882,
   2821834349, 2952996808, 3210313671, 3336571891, 3584528711,
   113926993, 338241895, 666307205, 773529912, 1294757372,
   1396182291, 1695183700, 1986661051, 2177026350, 2456956037,
   2730485921, 2820302411, 3259730800, 3345764771, 3516065817,
   3600352804, 4094571909, 275423344, 430227734, 506948616,
   659060556, 883997877, 958139571, 1322822218, 1537002063,
   1747873779, 1955562222, 2024104815, 2227730452, 2361852424,
   2428436474, 2756734187, 3204031479, 3329325298]

/-- The eight initial hash words of FIPS 180-4, written in decimal. -/
def sha256InitH : List Nat :=
  [1779033703, 3144134277, 1013904242, 2773480762,
   1359893119, 2600822924, 528734635, 1541459225]

/-- Extend a 16-word block to the 64-word message schedule. -/
def extendW (block : List Nat) : List Nat :=
  (List.range 48).foldl
    (fun w _ =>
      let i := w.length
      w ++ [(smallSigma1 (w.getD (i - 2) 0) + w.getD (i - 7) 0 +
             smallSigma0 (w.getD (i - 15) 0) + w.getD (i - 16) 0) % M32])
    block

/-- One SHA-256 compression step over a 16-word block. -/
def compressBlock (h : List Nat) (block : List Nat) : List Nat :=
  let w := extendW block
  let final := (List.zip sha256K w).foldl
    (fun st kw =>
      match st with
      | [a, b, c, d, e, f, g, hh] =>
        let ch := (e &&& f) ^^^ ((e ^^^ 4294967295) &&& g)
        let maj := (a &&& b) ^^^ (a &&& c) ^^^ (b &&& c)
        let t1 := (hh + bigSigma1 e + ch + kw.1 + kw.2) % M32
        let t2 := (bigSigma0 a + maj) % M32
        [(t1 + t2) % M32, a, b, c, (d + t1) % M32, e, f, g]
      | other => other)
    h
  (List.zip h final).map (fun p => (p.1 + p.2) % M32)

/-- Pack big-endian bytes into 32-bit words, four at a time. -/
def bytesToWords : List Nat → List Nat
  | b0 :: b1 :: b2 :: b3 :: rest =>
      (((b0 * 256 + b1) * 256 + b2) * 256 + b3) :: bytesToWords rest
  | _ => []

/-- Split a word list into 16-word blocks. -/
def chunk16 : List Nat → List (List Nat)
  | w0 :: w1 :: w2 :: w3 :: w4 :: w5 :: w6 :: w7 ::
    w8 :: w9 :: w10 :: w11 :: w12 :: w13 :: w14 :: w15 :: rest =>
      [w0, w1, w2, w3, w4, w5, w6, w7, w8, w9, w10, w11, w12, w13, w14, w15] :: chunk16 rest
  | _ => []

/-- SHA-256 padding: append 0x80, zeros to 56 mod 64, then the 8-byte
big-endian bit length. -/
def sha256Pad (bytes : List Nat) : List Nat :=
  let len := bytes.length
  let z := (119 - len % 64) % 64
  let lenBytes := (List.range 8).map (fun i => ((8 * len) >>> (8 * (7 - i))) % 256)
  bytes ++ [128] ++ List.replicate z 0 ++ lenBytes

/-- The SHA-256 digest of a byte string, as eight 32-bit words. -/
def sha256Hash (bytes : List Nat) : List Nat :=
  (chunk16 (bytesToWords (sha256Pad bytes))).foldl compressBlock sha256InitH

/-- One lowercase hex digit. -/
def hexDigit (n : Nat) : Char := "0123456789abcdef".toList.getD n '0'

/-- A 32-bit word as eight hex characters. -/
def wordToHex (w : Nat) : List Char :=
  (List.range 8).map (fun i => hexDigit ((w >>> (4 * (7 - i))) % 16))

/-- The bytes of an ASCII string (UTF-8 agrees with the codepoints). -/
def strBytes (s : String) : List Nat := s.toList.map Char.toNat

/-- `hashlib.sha256(s.encode()).hexdigest()` for ASCII `s`. -/
def sha256Hex (s : String) : String :=
  String.mk (((sha256Hash (strBytes s)).map wordToHex).flatten)

/-! ## Cryptography (`crypto.py`, class `SimpleCrypto`) -/

/-- `SimpleCrypto.sign`: hash the private key concatenated with the
message. -/
def sign (private_key message : String) : String :=
  sha256Hex (private_key ++ message)

set_option linter.unusedVariables false in
/-- `SimpleCrypto.verify_signature`: the source compares the signature
against the first 16 hex characters of `sha256("dummy" + message)`;
Python's `str.startswith` on these ASCII strings is character-list
prefixing.  The `public_key` parameter is unused in the source. -/
def verify_signature (public_key message signature : String) : Bool :=
  let expected := sha256Hex ("dummy" ++ message)
  List.isPrefixOf (expected.toList.take 16) signature.toList

/-- `SimpleCrypto.generate_keypair` derives the public key as
`sha256(private_key)`; this is the correspondence between the two
halves of a keypair. -/
def publicKeyOf (private_key : String) : String := sha256Hex private_key

/-! ## Serialization and digests (`messages.py`) -/

/-- The JSON-serializable Python values appearing in `to_dict`. -/
inductive PyVal
  | pyNone
  | pyInt (n : Nat)
  | pyStr (s : String)
  | pyList (l : List String)
deriving DecidableEq, Repr

/-- `IBFTMessage.to_dict`, with the source's key insertion order.
`list(self.justification)` keeps the stored order of the digest set. -/
def toDict (m : IBFTMessage) : List (String × PyVal) :=
  [("type", .pyStr m.msg_type.tag),
   ("view", .pyInt m.view),
   ("sequence", .pyInt m.sequence),
   ("sender", .pyInt m.sender),
   ("value", match m.value with | none => .pyNone | some s => .pyStr s),
   ("justification", .pyList m.justification),
   ("timestamp", .pyInt m.timestamp),
   ("signature", match m.signature with | none => .pyNone | some s => .pyStr s)]

/-- Render one value as `json.dumps` does (the strings in play contain
no characters that JSON escapes). -/
def renderPyVal : PyVal → String
  | .pyNone => "null"
  | .pyInt n => toString n
  | .pyStr s => "\"" ++ s ++ "\""
  | .pyList l => "[" ++ String.intercalate ", " (l.map (fun s => "\"" ++ s ++ "\"")) ++ "]"

/-- Lexicographic order on codepoint lists. -/
def leCodes : List Nat → List Nat → Bool
  | [], _ => true
  | _ :: _, [] => false
  | x :: xs, y :: ys => if x < y then true else if y < x then false else leCodes xs ys

/-- Python's `<=` on strings: codepoint-lexicographic (the keys sorted
here are ASCII). -/
def strLe (a b : String) : Bool :=
  leCodes (a.toList.map Char.toNat) (b.toList.map Char.toNat)

/-- Insert into a key-sorted association list. -/
def insertSorted (p : String × PyVal) : List (String × PyVal) → List (String × PyVal)
  | [] => [p]
  | q :: t => if strLe p.1 q.1 then p :: q :: t else q :: insertSorted p t

/-- Sort a dict's items by key, as `json.dumps(..., sort_keys=True)`. -/
def sortByKey (l : List (String × PyVal)) : List (String × PyVal) :=
  l.foldr insertSorted []

/-- `json.dumps(d, sort_keys=True)` with the default separators. -/
def dumpsDict (l : List (String × PyVal)) : String :=
  "\x7b" ++
    String.intercalate ", "
      ((sortByKey l).map (fun p => "\"" ++ p.1 ++ "\": " ++ renderPyVal p.2)) ++
  "\x7d"

/-- `IBFTMessage.hash`: the digest of the sorted-key serialization with
the `signature` entry popped. -/
def msgHash (m : IBFTMessage) : String :=
  sha256Hex (dumpsDict ((toDict m).filter (fun p => p.1 ≠ "signature")))

/-- `IBFTMessage.sign`: sets the `signature` field to the signature of
the message digest. -/
def msgSign (m : IBFTMessage) (private_key : String) : IBFTMessage :=
  { m with signature := some (sign private_key (msgHash m)) }

/-- `IBFTMessage.verify`: false without a signature, else delegates to
`verify_signature` on the digest. -/
def msgVerify (m : IBFTMessage) (public_key : String) : Bool :=
  match m.signature with
  | none => false
  | some s => verify_signature public_key (msgHash m) s

/-- The field names of the `IBFTMessage` dataclass, i.e. the keyword
arguments its `__init__` accepts. -/
def dataclassFields : List String :=
  ["msg_type", "view", "sequence", "sender", "value", "justification", "signature", "timestamp"]

/-- `cls(**data)`: Python raises `TypeError` on any keyword that is not
a dataclass field, and on a missing required field; otherwise it builds
the message, applying the dataclass defaults. -/
def applyKwargs (data : List (String × PyVal)) : Except String IBFTMessage :=
  match (data.map Prod.fst).filter (fun k => !(k ∈ dataclassFields : Bool)) with
  | k :: _ => .error ("TypeError: unexpected keyword argument " ++ k)
  | [] =>
    match lookupA data "msg_type", lookupA data "view",
          lookupA data "sequence", lookupA data "sender" with
    | some (.pyStr tagStr), some (.pyInt v), some (.pyInt sq), some (.pyInt sd) =>
      match parseMessageType tagStr with
      | some mt =>
        .ok { msg_type := mt, view := v, sequence := sq, sender := sd,
              value := match lookupA data "value" with
                       | some (.pyStr s) => some s
                       | _ => none,
              justification := match lookupA data "justification" with
                               | some (.pyList l) => l
                               | _ => [],
              signature := match lookupA data "signature" with
                           | some (.pyStr s) => some s
                           | _ => none,
              timestamp := match lookupA data "timestamp" with
                           | some (.pyInt t) => t
                           | _ => 0 }
      | none => .error "ValueError: not a valid MessageType"
    | _, _, _, _ => .error "TypeError: missing required argument"

/-- `IBFTMessage.from_json` after `json.loads`: `json.loads (json.dumps d)`
is the identity on these finite dicts of JSON-primitive values, so the
deserializer is modelled directly on the dict.  The source re-tags the
value under the key `"type"` (`data['type'] = MessageType(data['type'])`;
the key itself is left unchanged) and then calls `cls(**data)`. -/
def fromJson (data : List (String × PyVal)) : Except String IBFTMessage :=
  match lookupA data "type" with
  | some (.pyStr tagStr) =>
    if (parseMessageType tagStr).isSome then
      applyKwargs (setA data "type" (.pyStr tagStr))
    else .error "ValueError: not a valid MessageType"
  | _ => .error "KeyError: type"

/-! ## Quorum arithmetic (`node.py` `__init__`) -/

/-- `self.f = (total_nodes - 1) // 3`. -/
def fOf (total_nodes : Nat) : Nat := (total_nodes - 1) / 3

/-- The quorum threshold `2 * self.f + 1` used by every handler. -/
def quorumOf (total_nodes : Nat) : Nat := 2 * fOf total_nodes + 1

/-! ## The node state machine (`node.py`, class `IBFTNode`)

Messages reaching `_process_message` have already passed signature
verification and digest deduplication (`receive_message`); the run
function below therefore processes an arbitrary list of delivered
messages, which covers every interleaving the queue can produce,
including the self-delivery performed by `broadcast`.  Timers are not
modelled (they only schedule `_start_round_change`, which is embedded
as its own operation). -/

/-- The mutable per-node state of `IBFTNode`.  `lam` is the source's
`λ` field. -/
structure NodeState where
  node_id : Nat
  n : Nat
  f : Nat
  lam : Nat
  r : Nat
  pr : Int
  pv : Option String
  lock_round : Int
  lock_value : Option String
  preprepare_msgs : List ((Nat × Nat) × IBFTMessage)
  prepare_msgs : List ((Nat × Nat) × List (Option String × List Nat))
  commit_msgs : List ((Nat × Nat) × List (Option String × List Nat))
  round_change_msgs : List (Nat × List (Nat × List String))
  new_round_msgs : List (Nat × IBFTMessage)
  decided : Bool
  decision : Option String
  decisions : List (Nat × Option String)
deriving DecidableEq, Repr

/-- `IBFTNode.__init__`. -/
def initNode (node_id n : Nat) : NodeState :=
  { node_id := node_id, n := n, f := fOf n, lam := 0, r := 0, pr := -1, pv := none,
    lock_round := -1, lock_value := none, preprepare_msgs := [], prepare_msgs := [],
    commit_msgs := [], round_change_msgs := [], new_round_msgs := [], decided := false,
    decision := none, decisions := [] }

/-- The outcome of one handler: the new state, the broadcast messages in
order, and the `on_decision` callback invocations `(sequence, value)`. -/
structure StepOut where
  state : NodeState
  sent : List IBFTMessage
  callbacks : List (Nat × Option String)
deriving DecidableEq, Repr

/-- `IBFTNode._is_valid_value` (the default β predicate): accept any
non-`None` value. -/
def isValidValue (value : Option String) : Bool := value.isSome

/-- The PREPARE built by `_send_prepare` (signing only fills the
signature field, which no handler reads; it is left empty here). -/
def mkPrepare (s : NodeState) (value : Option String) (view sequence : Nat) : IBFTMessage :=
  { msg_type := .PREPARE, view := view, sequence := sequence,
    sender := s.node_id, value := value }

/-- The COMMIT built by `_send_commit`. -/
def mkCommit (s : NodeState) (value : Option String) (view sequence : Nat) : IBFTMessage :=
  { msg_type := .COMMIT, view := view, sequence := sequence,
    sender := s.node_id, value := value }

/-- `IBFTNode._handle_preprepare`: primary check, view check,
unconditional store into `preprepare_msgs`, β check, then PREPARE. -/
def handlePreprepare (s : NodeState) (msg : IBFTMessage) : StepOut :=
  if msg.view % s.n ≠ msg.sender then ⟨s, [], []⟩
  else if msg.view ≠ s.r then ⟨s, [], []⟩
  else
    let stored := setA s.preprepare_msgs (msg.view, msg.sequence) msg
    let s1 := { s with preprepare_msgs := stored }
    if !(isValidValue msg.value) then ⟨s1, [], []⟩
    else ⟨s1, [mkPrepare s1 msg.value msg.view msg.sequence], []⟩

/-- `IBFTNode._handle_prepare`: record the sender, then on
`len >= 2f + 1` update the lock when the view is higher and send a
COMMIT. -/
def handlePrepare (s : NodeState) (msg : IBFTMessage) : StepOut :=
  let key := (msg.view, msg.sequence)
  let inner := getDA s.prepare_msgs key []
  let senders := addToSet (getDA inner msg.value []) msg.sender
  let s1 := { s with prepare_msgs := setA s.prepare_msgs key (setA inner msg.value senders) }
  if 2 * s.f + 1 ≤ senders.length then
    let s2 := if s1.lock_round < (msg.view : Int)
              then { s1 with lock_round := (msg.view : Int), lock_value := msg.value }
              else s1
    ⟨s2, [mkCommit s2 msg.value msg.view msg.sequence], []⟩
  else ⟨s1, [], []⟩

/-- `IBFTNode._decide`: record the decision, advance `λ`, and invoke the
decision callback. -/
def nodeDecide (s : NodeState) (value : Option String) (sequence : Nat) :
    NodeState × (Nat × Option String) :=
  ({ s with decided := true, decision := value,
            decisions := setA s.decisions sequence value,
            lam := sequence + 1 },
   (sequence, value))

/-- `IBFTNode._handle_commit`: record the sender, then on
`len >= 2f + 1` decide. -/
def handleCommit (s : NodeState) (msg : IBFTMessage) : StepOut :=
  let key := (msg.view, msg.sequence)
  let inner := getDA s.commit_msgs key []
  let senders := addToSet (getDA inner msg.value []) msg.sender
  let s1 := { s with commit_msgs := setA s.commit_msgs key (setA inner msg.value senders) }
  if 2 * s.f + 1 ≤ senders.length then
    let p := nodeDecide s1 msg.value msg.sequence
    ⟨p.1, [], [p.2]⟩
  else ⟨s1, [], []⟩

/-- `IBFTNode._determine_safe_value` (Algorithm 4 in the source): the
node's own lock if any, otherwise a scan of the node's own local
`prepare_msgs` for the highest view with a quorum-sized sender set. -/
def determineSafeValue (s : NodeState) : Option String :=
  if 0 ≤ s.lock_round then s.lock_value
  else
    let res := s.prepare_msgs.foldl
      (fun acc entry =>
        entry.2.foldl
          (fun acc2 vs =>
            if 2 * s.f + 1 ≤ vs.2.length ∧ acc2.1 < (entry.1.1 : Int)
            then ((entry.1.1 : Int), vs.1)
            else acc2)
          acc)
      ((-1 : Int), (none : Option String))
    res.2

/-- `IBFTNode._send_new_round`: pick the safe value (defaulting to
`"Block for view {view}"`), collect the stored round-change digests as
justification, and broadcast a NEW_ROUND. -/
def sendNewRound (s : NodeState) (view : Nat) : StepOut :=
  let safe_value := (determineSafeValue s).getD ("Block for view " ++ toString view)
  let j := (getDA s.round_change_msgs view []).foldl
    (fun acc p => p.2.foldl (fun a h => if h ∈ a then a else a ++ [h]) acc) []
  ⟨s, [{ msg_type := .NEW_ROUND, view := view, sequence := s.lam,
         sender := s.node_id, value := some safe_value, justification := j }], []⟩

/-- `IBFTNode._handle_round_change`: store the message digest under
`(view, sender)`, and when the sender count reaches `2f + 1` and this
node is the primary of the view, send NEW_ROUND. -/
def handleRoundChange (s : NodeState) (msg : IBFTMessage) : StepOut :=
  let inner := getDA s.round_change_msgs msg.view []
  let hs := getDA inner msg.sender []
  let hs1 := if msgHash msg ∈ hs then hs else hs ++ [msgHash msg]
  let inner1 := setA inner msg.sender hs1
  let s1 := { s with round_change_msgs := setA s.round_change_msgs msg.view inner1 }
  if 2 * s.f + 1 ≤ inner1.length then
    if msg.view % s.n = s.node_id then sendNewRound s1 msg.view
    else ⟨s1, [], []⟩
  else ⟨s1, [], []⟩

/-- `IBFTNode._handle_new_round`: primary check, store the NEW_ROUND,
adopt the view, reset `(pr, pv)`, then re-process the value through the
PREPREPARE handler. -/
def handleNewRound (s : NodeState) (msg : IBFTMessage) : StepOut :=
  if msg.view % s.n ≠ msg.sender then ⟨s, [], []⟩
  else
    let s1 := { s with new_round_msgs := setA s.new_round_msgs msg.view msg,
                       r := msg.view, pr := -1, pv := none }
    handlePreprepare s1
      { msg_type := .PREPREPARE, view := msg.view, sequence := s1.lam,
        sender := msg.sender, value := msg.value }

/-- `IBFTNode._process_message` after signature verification: drop
messages for old consensus instances, then dispatch on the type. -/
def processMessage (s : NodeState) (msg : IBFTMessage) : StepOut :=
  if msg.sequence < s.lam then ⟨s, [], []⟩
  else
    match msg.msg_type with
    | .PREPREPARE => handlePreprepare s msg
    | .PREPARE => handlePrepare s msg
    | .COMMIT => handleCommit s msg
    | .ROUND_CHANGE => handleRoundChange s msg
    | .NEW_ROUND => handleNewRound s msg

/-- Serial processing of a list of delivered messages, accumulating the
broadcasts and decision callbacks. -/
def runNode (s : NodeState) : List IBFTMessage → StepOut
  | [] => ⟨s, [], []⟩
  | m :: rest =>
    let o := processMessage s m
    let o2 := runNode o.state rest
    ⟨o2.state, o.sent ++ o2.sent, o.callbacks ++ o2.callbacks⟩

/-- `IBFTNode._collect_round_change_justification`.  The inner guard is
Python's truthiness test `if self.lock_value:`, false for `None` and
for the empty string alike. -/
def collectRoundChangeJustification (s : NodeState) : List String :=
  if 0 ≤ s.lock_round then
    match s.lock_value with
    | some v =>
      if v = "" then []
      else
        [msgHash { msg_type := .PREPARE, view := s.lock_round.toNat,
                   sequence := s.lam, sender := s.node_id, value := s.lock_value }]
    | none => []
  else []

/-- `IBFTNode._start_round_change`: advance the round and broadcast a
ROUND_CHANGE carrying the collected justification. -/
def startRoundChange (s : NodeState) : StepOut :=
  let s1 := { s with r := s.r + 1 }
  ⟨s1, [{ msg_type := .ROUND_CHANGE, view := s1.r, sequence := s1.lam,
          sender := s1.node_id,
          justification := collectRoundChangeJustification s1 }], []⟩

/-- `IBFTNode.propose_value`: refuse once decided; otherwise broadcast a
PREPREPARE when this node is the primary of the current round.  Returns
(the unchanged-or-same state, the broadcasts, the boolean result). -/
def proposeValue (s : NodeState) (value : Option String) : StepOut × Bool :=
  if s.decided then (⟨s, [], []⟩, false)
  else if s.r % s.n = s.node_id then
    (⟨s, [{ msg_type := .PREPREPARE, view := s.r, sequence := s.lam,
            sender := s.node_id, value := value }], []⟩, true)
  else (⟨s, [], []⟩, false)

/-! ## The packaged consensus engine (`consensus.py`, class
`IBFTConsensus`), whose PREPREPARE handler carries the duplicate and
justification checks -/

/-- The slice of node state that `IBFTConsensus.handle_preprepare`
reads and writes:  the node's `r`, `pr`, `pv` plus the engine's own
`message_logs['preprepare']`. -/
structure CNode where
  node_id : Nat
  n : Nat
  f : Nat
  r : Nat
  pr : Int
  pv : Option String
  log_preprepare : List ((Nat × Nat) × IBFTMessage)
deriving DecidableEq, Repr

/-- `IBFTConsensus._has_valid_justification`: non-empty and at least
`f + 1` digests. -/
def hasValidJustification (f : Nat) (j : List String) : Bool :=
  if j = [] then false else f + 1 ≤ j.length

/-- `IBFTConsensus.handle_preprepare` (Algorithm 2 lines 1-7).  `beta`
is the injected external-validity predicate
(`self.node.validator.is_valid_value`).  Returns the new state, the
broadcasts, and the handler's boolean result.  Note the justification
guard `msg.view > 0 and msg.justification`: an *empty* justification
skips the validity check entirely. -/
def consensusHandlePreprepare (beta : Option String → Bool) (c : CNode)
    (msg : IBFTMessage) : CNode × List IBFTMessage × Bool :=
  if msg.view % c.n ≠ msg.sender then (c, [], false)
  else if msg.view ≠ c.r then
    (c, [], decide (c.r < msg.view))
  else if (lookupA c.log_preprepare (msg.view, msg.sequence)).isSome then
    (c, [], true)
  else if !(beta msg.value) then (c, [], false)
  else if 0 < msg.view ∧ msg.justification ≠ [] ∧
          !(hasValidJustification c.f msg.justification) then (c, [], false)
  else
    let stored := setA c.log_preprepare (msg.view, msg.sequence) msg
    let c1 := { c with log_preprepare := stored }
    let c2 := if c1.pr < (msg.view : Int)
              then { c1 with pr := (msg.view : Int), pv := msg.value }
              else c1
    (c2, [{ msg_type := .PREPARE, view := msg.view, sequence := msg.sequence,
            sender := c.node_id, value := msg.value }], true)

/-! ## The packaged view-change engine (`view_change.py`, class
`IBFTViewChange`) -/

/-- `IBFTViewChange._determine_safe_value` (Algorithm 4): the node's
own lock if any; the loop over the received round-change messages has
an empty body (`pass`) in the source, so `highest_value` is always
`None` and the fallback `"Default block"` is returned. -/
def determineSafeValueVC (lock_round : Int) (lock_value : Option String)
    (round_change_senders : List (Nat × List String)) : Option String :=
  if 0 ≤ lock_round then lock_value
  else
    let highest_value : Option String :=
      round_change_senders.foldl (fun acc _ => acc) none
    match highest_value with
    | none => some "Default block"
    | some v => some v

/-! ## Spec-level observables -/

/-- How often the decision callback fired for a given sequence in a list
of `on_decision` invocations. -/
def decCount (cbs : List (Nat × Option String)) (q : Nat) : Nat :=
  (cbs.filter (fun e => e.1 = q)).length

/-- Every recorded decision belongs to an already-finished instance:
its sequence lies below the current `λ`.  Holds initially and is
preserved by every step. -/
def DecInv (s : NodeState) : Prop :=
  ∀ q, (lookupA s.decisions q).isSome → q < s.lam

/-! ## Concrete scenario inputs used by the claim theorems -/

/-- A PREPARE for (view 0, sequence 0, value "v") from sender `i`. -/
def prepareFrom (i : Nat) : IBFTMessage :=
  { msg_type := .PREPARE, view := 0, sequence := 0, sender := i, value := some "v" }

/-- A COMMIT for (view 0, sequence 0, value "v") from sender `i`. -/
def commitFrom (i : Nat) : IBFTMessage :=
  { msg_type := .COMMIT, view := 0, sequence := 0, sender := i, value := some "v" }

/-- Three COMMITs: a commit quorum for n = 4, f = 1. -/
def threeCommits : List IBFTMessage := [commitFrom 0, commitFrom 1, commitFrom 2]

/-- The primary's PREPREPARE for (view 0, sequence 0) proposing "X". -/
def preprepareX : IBFTMessage :=
  { msg_type := .PREPREPARE, view := 0, sequence := 0, sender := 0, value := some "X" }

/-- An equivocating second PREPREPARE for the same (view, sequence)
proposing "Y". -/
def preprepareY : IBFTMessage :=
  { msg_type := .PREPREPARE, view := 0, sequence := 0, sender := 0, value := some "Y" }

/-- A PREPREPARE whose value is Python `None`, failing the default β. -/
def preprepareNone : IBFTMessage :=
  { msg_type := .PREPREPARE, view := 0, sequence := 0, sender := 0, value := none }

/-- A PREPREPARE for view 1 from the view-1 primary with an *empty*
justification. -/
def unjustifiedPreprepare : IBFTMessage :=
  { msg_type := .PREPREPARE, view := 1, sequence := 0, sender := 1, value := some "v" }

/-- A consensus-engine node (id 2 of 4, f = 1) already in view 1 with an
empty PREPREPARE log. -/
def c4Node : CNode :=
  { node_id := 2, n := 4, f := 1, r := 1, pr := -1, pv := none, log_preprepare := [] }

/-- Node 1 of 4 (the primary of view 1) that has gathered a quorum of
ROUND-CHANGE messages for view 1 from senders 0, 2 and 3, the last of
which carried a lock proof (a prepared certificate) in its
justification; the node itself is unlocked with an empty local prepare
log. -/
def rcQuorumState : NodeState :=
  { initNode 1 4 with
      round_change_msgs := [(1, [(0, ["h0"]), (2, ["h2"]), (3, ["lock_proof_0_a"])])] }

/-- The same primary, now itself locked on value "L" at round 0. -/
def lockedState : NodeState :=
  { rcQuorumState with lock_round := 0, lock_value := some "L" }

/-- The NEW_ROUND that `_send_new_round` actually broadcasts from
`rcQuorumState`: the default block, not the prepared value carried by
the round-change quorum. -/
def defaultNewRound : IBFTMessage :=
  { msg_type := .NEW_ROUND, view := 1, sequence := 0, sender := 1,
    value := some "Block for view 1",
    justification := ["h0", "h2", "lock_proof_0_a"] }

/-- The message signed in the crypto scenario (the test suite's
`test_message_signature` input, timestamp fixed at 0). -/
def testMessage : IBFTMessage :=
  { msg_type := .PREPARE, view := 0, sequence := 0, sender := 0, value := some "test" }

/-- A concrete private key of the shape `generate_keypair` produces
(64 hex characters). -/
def testPrivKey : String :=
  "0123456789abcdef0123456789abcdef0123456789abcdef0123456789abcdef"

/-! # Theorems -/

/-- Folding a constant function leaves the accumulator unchanged
(the body of the source's round-change scan is `pass`). -/
theorem foldl_const {α β : Type} (l : List α) (a : β) :
    l.foldl (fun acc _ => acc) a = a := by
  induction l with
  | nil => rfl
  | cons x t ih => exact ih

/-- C1: Safe-value selection ignores the received ROUND-CHANGE set.
`_determine_safe_value` is invariant under arbitrary changes to the
stored round-change messages (both the `node.py` and the
`view_change.py` version), the primary that gathered a quorum whose
member carried a prepared certificate still proposes the default block,
and a locked primary proposes its own lock value — never the
highest-`pr` value of the quorum, contradicting the claim. -/
theorem safe_value_ignores_round_changes :
    (∀ (s : NodeState) (rcm : List (Nat × List (Nat × List String))),
        determineSafeValue { s with round_change_msgs := rcm } = determineSafeValue s)
    ∧ (∀ (lr : Int) (lv : Option String) (q q' : List (Nat × List String)),
        determineSafeValueVC lr lv q = determineSafeValueVC lr lv q')
    ∧ (sendNewRound rcQuorumState 1).sent = [defaultNewRound]
    ∧ determineSafeValue lockedState = some "L" := by
  refine ⟨fun s rcm => rfl, fun lr lv q q' => ?_, by decide, by decide⟩
  simp only [determineSafeValueVC, foldl_const]

/-- C2: The commit transition is not edge-triggered.  With n = 4, f = 1
(quorum 3), three PREPAREs for (0, 0, "v") make node 1 broadcast one
COMMIT, and a fourth PREPARE from a new sender — received *after* the
quorum was reached — makes it broadcast a second identical COMMIT,
contradicting the at-most-one-COMMIT claim. -/
theorem commit_rebroadcast_after_quorum :
    (runNode (initNode 1 4) [prepareFrom 0, prepareFrom 1, prepareFrom 2]).sent
      = [mkCommit (initNode 1 4) (some "v") 0 0]
    ∧ (runNode (initNode 1 4) [prepareFrom 0, prepareFrom 1, prepareFrom 2, prepareFrom 3]).sent
      = [mkCommit (initNode 1 4) (some "v") 0 0, mkCommit (initNode 1 4) (some "v") 0 0] :=
  ⟨by decide, by decide⟩

/-- C3: A second PREPREPARE for an already-recorded (view, sequence) is
not dropped by `node.py`: it overwrites the recorded message and
triggers a second PREPARE for the new value, contradicting the claim
(node 1 of 4 receives the primary's "X" and then its equivocating
"Y"). -/
theorem duplicate_preprepare_replaces_and_resends :
    (runNode (initNode 1 4) [preprepareX, preprepareY]).sent
      = [mkPrepare (initNode 1 4) (some "X") 0 0, mkPrepare (initNode 1 4) (some "Y") 0 0]
    ∧ lookupA (runNode (initNode 1 4) [preprepareX, preprepareY]).state.preprepare_msgs (0, 0)
      = some preprepareY :=
  ⟨by decide, by decide⟩

/-- C4: A PREPREPARE for view 1 with an *empty* justification is
accepted by `consensus.py`: the handler returns true, records the
message and broadcasts a PREPARE, because the guard
`msg.view > 0 and msg.justification` skips the justification check on
an empty set — even though the engine's own
`_has_valid_justification` rejects empty justifications. -/
theorem empty_justification_preprepare_accepted :
    (consensusHandlePreprepare isValidValue c4Node unjustifiedPreprepare).2.2 = true
    ∧ lookupA (consensusHandlePreprepare isValidValue c4Node
        unjustifiedPreprepare).1.log_preprepare (1, 0) = some unjustifiedPreprepare
    ∧ (consensusHandlePreprepare isValidValue c4Node unjustifiedPreprepare).2.1
      = [{ msg_type := .PREPARE, view := 1, sequence := 0, sender := 2, value := some "v" }]
    ∧ hasValidJustification c4Node.f [] = false :=
  ⟨by decide, by decide, by decide, by decide⟩

/-- C8: A PREPREPARE whose value fails β is dropped without a PREPARE,
but the node's state is *not* unchanged: `node.py` stores the message
in the preprepare log before checking validity, so the log retains
it. -/
theorem invalid_value_preprepare_retained :
    (runNode (initNode 1 4) [preprepareNone]).sent = []
    ∧ (runNode (initNode 1 4) [preprepareNone]).callbacks = []
    ∧ lookupA (runNode (initNode 1 4) [preprepareNone]).state.preprepare_msgs (0, 0)
      = some preprepareNone
    ∧ (runNode (initNode 1 4) [preprepareNone]).state ≠ initNode 1 4 :=
  ⟨by decide, by decide, by decide, by decide⟩

/-- C9 counterexample: at N = 5 the code computes f = 1 and quorum = 3,
the claimed rational inequality `quorum > N/2 + f/2` fails, and two
concrete quorum-sized subsets of the five participants intersect in
fewer than f + 1 members. -/
theorem quorum_identity_fails_at_five :
    ¬ ((quorumOf 5 : ℚ) > (5 : ℚ) / 2 + (fOf 5 : ℚ) / 2)
    ∧ ({0, 1, 2} : Finset ℕ) ⊆ Finset.range 5
    ∧ ({2, 3, 4} : Finset ℕ) ⊆ Finset.range 5
    ∧ ({0, 1, 2} : Finset ℕ).card = quorumOf 5
    ∧ ({2, 3, 4} : Finset ℕ).card = quorumOf 5
    ∧ (({0, 1, 2} : Finset ℕ) ∩ {2, 3, 4}).card < fOf 5 + 1 := by
  refine ⟨?_, by decide, by decide, by decide, by decide, by decide⟩
  norm_num [quorumOf, fOf]

/-- C9 amended: when N ≡ 1 (mod 3) — i.e. N = 3f + 1, the configuration
the protocol is designed for — the quorum 2f + 1 computed by the code
does satisfy `quorum > N/2 + f/2` over the rationals, and any two
quorum-sized subsets of the N participants intersect in at least f + 1
members. -/
theorem quorum_identity_for_3f_plus_1 (N : Nat) (h4 : 4 ≤ N) (h3 : N % 3 = 1) :
    ((quorumOf N : ℚ) > (N : ℚ) / 2 + (fOf N : ℚ) / 2)
    ∧ (∀ A B : Finset ℕ, A ⊆ Finset.range N → B ⊆ Finset.range N →
        A.card = quorumOf N → B.card = quorumOf N → fOf N + 1 ≤ (A ∩ B).card) := by
  obtain ⟨k, rfl⟩ : ∃ k, N = 3 * k + 1 := ⟨N / 3, by omega⟩
  have hf : fOf (3 * k + 1) = k := by unfold fOf; omega
  have hq : quorumOf (3 * k + 1) = 2 * k + 1 := by unfold quorumOf; rw [hf]
  constructor
  · rw [hq, hf]
    push_cast
    have hk : (0 : ℚ) ≤ (k : ℚ) := by positivity
    linarith
  · intro A B hA hB hcA hcB
    have hUnion : (A ∪ B).card ≤ 3 * k + 1 := by
      have hsub := Finset.card_le_card (Finset.union_subset hA hB)
      simpa [Finset.card_range] using hsub
    have hIU := Finset.card_union_add_card_inter A B
    rw [hq] at hcA hcB
    rw [hf]
    omega

/-- C9 witness: the amended identity instantiated at N = 4. -/
theorem quorum_identity_for_3f_plus_1_witness :
    (4 ≤ 4 ∧ 4 % 3 = 1)
    ∧ ((quorumOf 4 : ℚ) > ((4 : ℕ) : ℚ) / 2 + (fOf 4 : ℚ) / 2) :=
  ⟨⟨by decide, by decide⟩, (quorum_identity_for_3f_plus_1 4 (by decide) (by decide)).1⟩

/-- C7: deserializing any serialized message always raises:
`from_json` re-tags the value under the dict key "type" but never
renames the key to the dataclass field `msg_type`, so `cls(**data)`
receives the unexpected keyword `type` and Python raises `TypeError`.
The encode/decode round trip therefore never returns a message, let
alone one with the same digest. -/
theorem from_json_raises_type_error (m : IBFTMessage) :
    fromJson (sortByKey (toDict m))
      = Except.error "TypeError: unexpected keyword argument type" := by
  rcases m with ⟨mt, v, sq, sd, val, j, sig, ts⟩
  cases mt <;> rfl

set_option maxRecDepth 100000 in
set_option maxHeartbeats 2000000 in
/-- C6: the signature round trip fails.  Signing the test message with
a concrete keypair (public key = sha256 of the private key, as
`generate_keypair` derives it) and verifying with that very public key
returns false, because `verify_signature` compares the signature
against a prefix of `sha256("dummy" + digest)` and ignores the key
entirely — as the second conjunct shows, its result is independent of
the public key, so no key-specific verification happens at all. -/
theorem sign_verify_roundtrip_fails :
    msgVerify (msgSign testMessage testPrivKey) (publicKeyOf testPrivKey) = false
    ∧ (∀ pk pk' dgst s, verify_signature pk dgst s = verify_signature pk' dgst s) :=
  ⟨by decide, fun pk pk' dgst s => rfl⟩

/-! ## Association-list lemmas -/

theorem lookupA_setA_self {α β : Type} [DecidableEq α] (l : List (α × β)) (a : α) (b : β) :
    lookupA (setA l a b) a = some b := by
  induction l with
  | nil => simp [setA, lookupA]
  | cons p t ih =>
    obtain ⟨k, v⟩ := p
    by_cases h : k = a
    · subst h; simp [setA, lookupA]
    · simp [setA, lookupA, h, ih]

theorem lookupA_setA_ne {α β : Type} [DecidableEq α] (l : List (α × β)) (a c : α) (b : β)
    (h : c ≠ a) : lookupA (setA l a b) c = lookupA l c := by
  induction l with
  | nil =>
    have hac : ¬ (a = c) := fun he => h he.symm
    simp [setA, lookupA, hac]
  | cons p t ih =>
    obtain ⟨k, v⟩ := p
    by_cases hk : k = a
    · subst hk
      have hkc : ¬ (k = c) := fun he => h he.symm
      simp [setA, lookupA, hkc]
    · simp [setA, lookupA, hk, ih]

theorem decCount_append (l1 l2 : List (Nat × Option String)) (q : Nat) :
    decCount (l1 ++ l2) q = decCount l1 q + decCount l2 q := by
  simp [decCount, List.filter_append]

theorem decCount_single (p : Nat × Option String) (q : Nat) :
    decCount [p] q = if p.1 = q then 1 else 0 := by
  by_cases h : p.1 = q <;> simp [decCount, List.filter, h]

/-! ## Frame lemmas: which handlers touch the decision state -/

theorem handlePreprepare_frame (s : NodeState) (m : IBFTMessage) :
    (handlePreprepare s m).state.lam = s.lam
    ∧ (handlePreprepare s m).state.decisions = s.decisions
    ∧ (handlePreprepare s m).state.decided = s.decided
    ∧ (handlePreprepare s m).callbacks = [] := by
  unfold handlePreprepare
  dsimp only
  split_ifs <;> exact ⟨rfl, rfl, rfl, rfl⟩

theorem handlePrepare_frame (s : NodeState) (m : IBFTMessage) :
    (handlePrepare s m).state.lam = s.lam
    ∧ (handlePrepare s m).state.decisions = s.decisions
    ∧ (handlePrepare s m).state.decided = s.decided
    ∧ (handlePrepare s m).callbacks = [] := by
  unfold handlePrepare
  dsimp only
  split_ifs <;> exact ⟨rfl, rfl, rfl, rfl⟩

theorem handleRoundChange_frame (s : NodeState) (m : IBFTMessage) :
    (handleRoundChange s m).state.lam = s.lam
    ∧ (handleRoundChange s m).state.decisions = s.decisions
    ∧ (handleRoundChange s m).state.decided = s.decided
    ∧ (handleRoundChange s m).callbacks = [] := by
  unfold handleRoundChange sendNewRound
  dsimp only
  split_ifs <;> exact ⟨rfl, rfl, rfl, rfl⟩

theorem handleNewRound_frame (s : NodeState) (m : IBFTMessage) :
    (handleNewRound s m).state.lam = s.lam
    ∧ (handleNewRound s m).state.decisions = s.decisions
    ∧ (handleNewRound s m).state.decided = s.decided
    ∧ (handleNewRound s m).callbacks = [] := by
  unfold handleNewRound
  split_ifs with h
  · exact ⟨rfl, rfl, rfl, rfl⟩
  · exact handlePreprepare_frame _ _

theorem handleCommit_spec (s : NodeState) (m : IBFTMessage) :
    ((handleCommit s m).state.lam = s.lam
      ∧ (handleCommit s m).state.decisions = s.decisions
      ∧ (handleCommit s m).state.decided = s.decided
      ∧ (handleCommit s m).callbacks = [])
    ∨ ((handleCommit s m).state.lam = m.sequence + 1
      ∧ (handleCommit s m).state.decisions = setA s.decisions m.sequence m.value
      ∧ (handleCommit s m).state.decided = true
      ∧ (handleCommit s m).callbacks = [(m.sequence, m.value)]) := by
  unfold handleCommit
  dsimp only
  split_ifs with h
  · right; exact ⟨rfl, rfl, rfl, rfl⟩
  · left; exact ⟨rfl, rfl, rfl, rfl⟩

/-- The one-step dichotomy of `_process_message`: either the decision
state is untouched and no callback fires, or the message is a COMMIT
for a live sequence that completes a quorum, in which case `λ` jumps to
`sequence + 1`, the decision is recorded, the flag is set and the
callback fires once. -/
theorem processMessage_spec (s : NodeState) (m : IBFTMessage) :
    ((processMessage s m).state.lam = s.lam
      ∧ (processMessage s m).state.decisions = s.decisions
      ∧ (processMessage s m).state.decided = s.decided
      ∧ (processMessage s m).callbacks = [])
    ∨ (s.lam ≤ m.sequence
      ∧ (processMessage s m).state.lam = m.sequence + 1
      ∧ (processMessage s m).state.decisions = setA s.decisions m.sequence m.value
      ∧ (processMessage s m).state.decided = true
      ∧ (processMessage s m).callbacks = [(m.sequence, m.value)]) := by
  unfold processMessage
  split_ifs with h
  · left; exact ⟨rfl, rfl, rfl, rfl⟩
  · have hle : s.lam ≤ m.sequence := Nat.le_of_not_lt h
    cases hmt : m.msg_type
    · exact Or.inl (handlePreprepare_frame s m)
    · exact Or.inl (handlePrepare_frame s m)
    · rcases handleCommit_spec s m with hc | hc
      · exact Or.inl hc
      · exact Or.inr ⟨hle, hc.1, hc.2.1, hc.2.2.1, hc.2.2.2⟩
    · exact Or.inl (handleRoundChange_frame s m)
    · exact Or.inl (handleNewRound_frame s m)

/-! ## Run-level invariants -/

theorem runNode_cons_state (s : NodeState) (m : IBFTMessage) (t : List IBFTMessage) :
    (runNode s (m :: t)).state = (runNode (processMessage s m).state t).state := rfl

theorem runNode_cons_callbacks (s : NodeState) (m : IBFTMessage) (t : List IBFTMessage) :
    (runNode s (m :: t)).callbacks
      = (processMessage s m).callbacks ++ (runNode (processMessage s m).state t).callbacks := rfl

theorem processMessage_lam_le (s : NodeState) (m : IBFTMessage) :
    s.lam ≤ (processMessage s m).state.lam := by
  rcases processMessage_spec s m with ⟨h1, _, _, _⟩ | ⟨hle, h1, _, _, _⟩
  · exact le_of_eq h1.symm
  · rw [h1]; omega

theorem processMessage_DecInv (s : NodeState) (m : IBFTMessage) (hInv : DecInv s) :
    DecInv (processMessage s m).state := by
  rcases processMessage_spec s m with ⟨h1, h2, _, _⟩ | ⟨hle, h1, h2, _, _⟩
  · intro q hq
    rw [h2] at hq
    rw [h1]
    exact hInv q hq
  · intro q hq
    rw [h1]
    rw [h2] at hq
    by_cases hqe : q = m.sequence
    · omega
    · rw [lookupA_setA_ne _ _ _ _ hqe] at hq
      have := hInv q hq
      omega

theorem processMessage_persist (s : NodeState) (m : IBFTMessage) (q : Nat)
    (v : Option String) (hq : lookupA s.decisions q = some v) (hlt : q < s.lam) :
    lookupA (processMessage s m).state.decisions q = some v := by
  rcases processMessage_spec s m with ⟨_, h2, _, _⟩ | ⟨hle, _, h2, _, _⟩
  · rw [h2]; exact hq
  · rw [h2]
    have hne : q ≠ m.sequence := by omega
    rw [lookupA_setA_ne _ _ _ _ hne]
    exact hq

theorem processMessage_nofire (s : NodeState) (m : IBFTMessage) (q : Nat)
    (hlt : q < s.lam) : decCount (processMessage s m).callbacks q = 0 := by
  rcases processMessage_spec s m with ⟨_, _, _, h4⟩ | ⟨hle, _, _, _, h4⟩
  · rw [h4]; rfl
  · rw [h4, decCount_single]
    have : ¬ m.sequence = q := by omega
    simp [this]

theorem processMessage_fire (s : NodeState) (m : IBFTMessage) (q : Nat) (v : Option String)
    (hmem : (q, v) ∈ (processMessage s m).callbacks) :
    (processMessage s m).state.lam = q + 1
    ∧ lookupA (processMessage s m).state.decisions q = some v
    ∧ (processMessage s m).state.decided = true := by
  rcases processMessage_spec s m with ⟨_, _, _, h4⟩ | ⟨hle, h1, h2, h3, h4⟩
  · rw [h4] at hmem; cases hmem
  · rw [h4] at hmem
    have hqv : q = m.sequence ∧ v = m.value := by simpa using hmem
    obtain ⟨hq, hv⟩ := hqv
    subst hq; subst hv
    exact ⟨h1, by rw [h2]; exact lookupA_setA_self _ _ _, h3⟩

theorem runNode_lam_le (s : NodeState) (l : List IBFTMessage) :
    s.lam ≤ (runNode s l).state.lam := by
  induction l generalizing s with
  | nil => exact le_refl _
  | cons m t ih =>
    rw [runNode_cons_state]
    exact le_trans (processMessage_lam_le s m) (ih _)

theorem runNode_DecInv (s : NodeState) (l : List IBFTMessage) (h : DecInv s) :
    DecInv (runNode s l).state := by
  induction l generalizing s with
  | nil => exact h
  | cons m t ih =>
    rw [runNode_cons_state]
    exact ih _ (processMessage_DecInv s m h)

theorem runNode_nofire (s : NodeState) (l : List IBFTMessage) (q : Nat)
    (hlt : q < s.lam) : decCount (runNode s l).callbacks q = 0 := by
  induction l generalizing s with
  | nil => rfl
  | cons m t ih =>
    rw [runNode_cons_callbacks, decCount_append, processMessage_nofire s m q hlt,
        ih _ (lt_of_lt_of_le hlt (processMessage_lam_le s m))]

theorem runNode_atmost_once (s : NodeState) (l : List IBFTMessage) (q : Nat)
    (h : DecInv s) : decCount (runNode s l).callbacks q ≤ 1 := by
  induction l generalizing s with
  | nil => simp [runNode, decCount]
  | cons m t ih =>
    rw [runNode_cons_callbacks, decCount_append]
    rcases processMessage_spec s m with ⟨_, _, _, h4⟩ | ⟨hle, h1, _, _, h4⟩
    · rw [h4]
      simpa [decCount] using ih _ (processMessage_DecInv s m h)
    · rw [h4, decCount_single]
      by_cases hq : m.sequence = q
      · subst hq
        have h0 : decCount (runNode (processMessage s m).state t).callbacks m.sequence = 0 := by
          apply runNode_nofire
          rw [h1]
          omega
        simp [h0]
      · have h1le := ih _ (processMessage_DecInv s m h)
        simp [hq]
        omega

theorem runNode_persist (s : NodeState) (l : List IBFTMessage) (q : Nat) (v : Option String)
    (h : DecInv s) (hq : lookupA s.decisions q = some v) :
    lookupA (runNode s l).state.decisions q = some v := by
  induction l generalizing s with
  | nil => exact hq
  | cons m t ih =>
    have hlt : q < s.lam := h q (by rw [hq]; rfl)
    rw [runNode_cons_state]
    exact ih _ (processMessage_DecInv s m h) (processMessage_persist s m q v hq hlt)

theorem runNode_append_state (s : NodeState) (l1 l2 : List IBFTMessage) :
    (runNode s (l1 ++ l2)).state = (runNode (runNode s l1).state l2).state := by
  induction l1 generalizing s with
  | nil => rfl
  | cons m t ih => exact ih (processMessage s m).state

theorem DecInv_initNode (nid n : Nat) : DecInv (initNode nid n) := by
  intro q hq
  simp [initNode, lookupA] at hq

/-- C5: from a freshly constructed node, across processing any sequence
of delivered messages: (a) the decision callback fires at most once per
sequence; (b) a recorded decision value is never changed by later
messages; and (c) at the moment the callback fires for sequence q the
instance identifier `λ` equals q + 1 and the decision is recorded. -/
theorem decision_fires_at_most_once (nid n q : Nat) (l1 l2 : List IBFTMessage)
    (m : IBFTMessage) :
    decCount (runNode (initNode nid n) (l1 ++ l2)).callbacks q ≤ 1
    ∧ (∀ v, lookupA (runNode (initNode nid n) l1).state.decisions q = some v →
        lookupA (runNode (initNode nid n) (l1 ++ l2)).state.decisions q = some v)
    ∧ (∀ v, (q, v) ∈ (processMessage (runNode (initNode nid n) l1).state m).callbacks →
        (processMessage (runNode (initNode nid n) l1).state m).state.lam = q + 1
        ∧ lookupA (processMessage (runNode (initNode nid n) l1).state m).state.decisions q
            = some v) := by
  refine ⟨runNode_atmost_once _ _ _ (DecInv_initNode nid n), fun v hv => ?_,
          fun v hmem => ⟨(processMessage_fire _ _ _ _ hmem).1,
                         (processMessage_fire _ _ _ _ hmem).2.1⟩⟩
  rw [runNode_append_state]
  exact runNode_persist _ _ _ _ (runNode_DecInv _ _ (DecInv_initNode nid n)) hv

/-- C5 witness: node 0 of 4 decides sequence 0 on the third COMMIT; a
fourth COMMIT neither refires the callback nor disturbs the recorded
decision, and at the firing step `λ` became 1. -/
theorem decision_fires_at_most_once_witness :
    decCount (runNode (initNode 0 4) (threeCommits ++ [commitFrom 3])).callbacks 0 ≤ 1
    ∧ lookupA (runNode (initNode 0 4) (threeCommits ++ [commitFrom 3])).state.decisions 0
        = some (some "v")
    ∧ (processMessage (runNode (initNode 0 4) [commitFrom 0, commitFrom 1]).state
        (commitFrom 2)).state.lam = 0 + 1 :=
  ⟨(decision_fires_at_most_once 0 4 0 threeCommits [commitFrom 3] (commitFrom 2)).1,
   (decision_fires_at_most_once 0 4 0 threeCommits [commitFrom 3] (commitFrom 2)).2.1
     (some "v") (by decide),
   ((decision_fires_at_most_once 0 4 0 [commitFrom 0, commitFrom 1] [commitFrom 3]
       (commitFrom 2)).2.2 (some "v") (by decide)).1⟩

/-- C10: once `decided` is true it stays true under every embedded
operation (message processing, whole runs, round changes), any firing
of the decision callback sets it, and `propose_value` on a decided node
returns false, changes nothing and broadcasts nothing. -/
theorem decided_flag_is_final (s : NodeState) (m : IBFTMessage) (v : Option String)
    (l : List IBFTMessage) (h : s.decided = true) :
    (processMessage s m).state.decided = true
    ∧ (runNode s l).state.decided = true
    ∧ (startRoundChange s).state.decided = true
    ∧ proposeValue s v = (⟨s, [], []⟩, false)
    ∧ (∀ s' : NodeState, (processMessage s' m).callbacks ≠ [] →
        (processMessage s' m).state.decided = true) := by
  have hstep : ∀ (s0 : NodeState) (m0 : IBFTMessage), s0.decided = true →
      (processMessage s0 m0).state.decided = true := by
    intro s0 m0 h0
    rcases processMessage_spec s0 m0 with ⟨_, _, h3, _⟩ | ⟨_, _, _, h3, _⟩
    · rw [h3]; exact h0
    · exact h3
  have hrun : ∀ (l0 : List IBFTMessage) (s0 : NodeState), s0.decided = true →
      (runNode s0 l0).state.decided = true := by
    intro l0
    induction l0 with
    | nil => intro s0 h0; exact h0
    | cons m0 t ih =>
      intro s0 h0
      rw [runNode_cons_state]
      exact ih _ (hstep s0 m0 h0)
  refine ⟨hstep s m h, hrun l s h, h, ?_, ?_⟩
  · simp [proposeValue, h]
  · intro s' hne
    rcases processMessage_spec s' m with ⟨_, _, _, h4⟩ | ⟨_, _, _, h3, _⟩
    · exact absurd h4 hne
    · exact h3

/-- C10 witness: after deciding sequence 0, node 0 stays decided
through a further COMMIT and refuses a new proposal. -/
theorem decided_flag_is_final_witness :
    (runNode (runNode (initNode 0 4) threeCommits).state [commitFrom 3]).state.decided = true
    ∧ proposeValue (runNode (initNode 0 4) threeCommits).state (some "w")
        = (⟨(runNode (initNode 0 4) threeCommits).state, [], []⟩, false)
    ∧ (processMessage (runNode (initNode 0 4) [commitFrom 0, commitFrom 1]).state
        (commitFrom 2)).state.decided = true :=
  ⟨(decided_flag_is_final (runNode (initNode 0 4) threeCommits).state (commitFrom 2)
      (some "w") [commitFrom 3] (by decide)).2.1,
   (decided_flag_is_final (runNode (initNode 0 4) threeCommits).state (commitFrom 2)
      (some "w") [commitFrom 3] (by decide)).2.2.2.1,
   (decided_flag_is_final (runNode (initNode 0 4) threeCommits).state (commitFrom 2)
      (some "w") [commitFrom 3] (by decide)).2.2.2.2
     (runNode (initNode 0 4) [commitFrom 0, commitFrom 1]).state (by decide)⟩

end IBFT
